import Mathlib

/-!
Shallow embedding of the collection-and-filtering pipeline of `digest.py`
(the RV-news digest).  Python strings are mod. as Lean `String`s over their
character lists; the Python substring test `pat in hay` is `inStr`; datetimes
are modelled by `DT`, carrying the instant the value denotes on the UTC
scale (microseconds) together with an awareness flag (`tzinfo is None`
maps to `aware = false`, where `instant` then stores the naive reading
interpreted on the UTC scale, which is exactly what
`replace(tzinfo=timezone.utc)` turns it into).  External library calls
(pytz `localize`, `urljoin`, the date-regex-plus-dateutil composite)
appear as explicit function parameters.
-/

namespace RVDigest

/-- Python `hay.startswith(pat)` on character lists: `leadsWith pat hay`
is true iff `pat` is an initial segment of `hay`. -/
def leadsWith : List Char → List Char → Bool
  | [], _ => true
  | _ :: _, [] => false
  | p :: ps, h :: t => p == h && leadsWith ps t

/-- Python substring containment `pat in hay` on character lists. -/
def occursIn (pat : List Char) : List Char → Bool
  | [] => leadsWith pat []
  | h :: t => leadsWith pat (h :: t) || occursIn pat t

/-- Python `pat in hay` on strings. -/
def inStr (pat hay : String) : Bool := occursIn pat.toList hay.toList

/-- Python `str.lower()` (ASCII, which is all the pipeline feeds it). -/
def lowerStr (s : String) : String := ⟨s.toList.map Char.toLower⟩

/-- Python `str.upper()` (ASCII). -/
def upperStr (s : String) : String := ⟨s.toList.map Char.toUpper⟩

/-- ASCII whitespace in the sense of the regex class `\s`. -/
def isPyWs (c : Char) : Bool :=
  c == ' ' || c == '\t' || c == '\n' || c == '\r' || c == '\x0b' || c == '\x0c'

/-- One pass of Python `re.sub(r"\s+", " ", text)`: every maximal run of
whitespace becomes a single space.  The flag records whether the previous
character was part of a whitespace run. -/
def collapseWsAux : Bool → List Char → List Char
  | _, [] => []
  | inRun, c :: t =>
    if isPyWs c then
      if inRun then collapseWsAux true t
      else ' ' :: collapseWsAux true t
    else
      c :: collapseWsAux false t

/-- Python `str.strip()`: drop leading and trailing whitespace. -/
def stripWs (l : List Char) : List Char :=
  ((l.dropWhile isPyWs).reverse.dropWhile isPyWs).reverse

/-- `re.sub(r"\s+", " ", text).strip()` as used by the relevance filter. -/
def normText (s : String) : String := ⟨stripWs (collapseWsAux false s.toList)⟩

/-- Microseconds in one day; `timedelta(days=d)` is `d * usecPerDay`. -/
def usecPerDay : Int := 86400000000

/-- A Python `datetime`: the instant it denotes on the UTC scale, in
microseconds, plus whether it is timezone-aware.  For a naive value,
`instant` stores the reading interpreted as UTC (what
`replace(tzinfo=timezone.utc)` makes of it). -/
structure DT where
  instant : Int
  aware : Bool
deriving DecidableEq

/-- The `Item` dataclass of `digest.py`. -/
structure Item where
  source : String
  title : String
  url : String
  published : DT
  summary : String := ""
deriving DecidableEq

/-- `MUST_HAVE_ANY` from `digest.py`. -/
def MUST_HAVE_ANY : List String :=
  ["rv park", "rv parks",
   "rv resort", "rv resorts",
   "rv campground", "rv campgrounds",
   "campground", "campgrounds",
   "recreation vehicle park",
   "koa"]

/-- `REJECT_IF_ANY` from `digest.py`. -/
def REJECT_IF_ANY : List String :=
  ["travel trailer", "fifth wheel", "motorhome", "pickup truck", "tow vehicle",
   "airstream", "campervan", "van life", "vanlife",
   "rv review", "rv show", "rv expo", "dealership", "dealer",
   "msrp", "new model", "recall",
   "best rv", "top rv", "rv tips", "rv maintenance"]

/-- `NON_US_HINTS` from `digest.py`. -/
def NON_US_HINTS : List String :=
  ["australia", "western australia", "queensland", "new south wales", "victoria (aus)",
   "canada", "ontario", "british columbia", "alberta",
   "united kingdom", "uk", "england", "scotland", "wales",
   "ireland", "new zealand",
   "europe", "germany", "france", "spain", "italy",
   "south africa", "india"]

/-- `US_OPERATOR_OK` from `digest.py`. -/
def US_OPERATOR_OK : List String :=
  ["koa",
   "sun communities", "sun outdoors", "sui",
   "equity lifestyle", "equity lifestyle properties", "els",
   "rhp properties"]

/-- The state-name tail of `US_HINTS` in `digest.py`. -/
def US_STATE_NAMES : List String :=
  ["alabama", "alaska", "arizona", "arkansas", "california", "colorado",
   "connecticut", "delaware", "florida", "georgia", "hawaii", "idaho",
   "illinois", "indiana", "iowa", "kansas", "kentucky", "louisiana",
   "maine", "maryland", "massachusetts", "michigan", "minnesota",
   "mississippi", "missouri", "montana", "nebraska", "nevada",
   "new hampshire", "new jersey", "new mexico", "new york",
   "north carolina", "north dakota", "ohio", "oklahoma", "oregon",
   "pennsylvania", "rhode island", "south carolina", "south dakota",
   "tennessee", "texas", "utah", "vermont", "virginia", "washington",
   "west virginia", "wisconsin", "wyoming"]

/-- `US_HINTS` from `digest.py`: generic hints plus the state names. -/
def US_HINTS : List String :=
  ["united states", "u.s.", "usa", "american",
   "county", "city of", "state of"] ++ US_STATE_NAMES

/-- `STATE_ABBR` from `digest.py`. -/
def STATE_ABBR : List String :=
  ["AL","AK","AZ","AR","CA","CO","CT","DE","FL","GA","HI","ID","IL","IN","IA","KS","KY","LA",
   "ME","MD","MA","MI","MN","MS","MO","MT","NE","NV","NH","NJ","NM","NY","NC","ND","OH","OK",
   "OR","PA","RI","SC","SD","TN","TX","UT","VT","VA","WA","WV","WI","WY"]

/-- `has_state_abbr` from `digest.py`. -/
def has_state_abbr (text : String) : Bool :=
  let t := " " ++ upperStr text ++ " "
  STATE_ABBR.any fun ab =>
    inStr (" " ++ ab ++ " ") t || inStr (", " ++ ab ++ " ") t || inStr ("(" ++ ab ++ ")") t

/-- The lower-cased, whitespace-collapsed text the relevance filter
builds from an item: `(title + " " + summary).lower()` then
`re.sub(r"\s+", " ", text).strip()`. -/
def filterText (it : Item) : String :=
  normText (lowerStr (it.title ++ " " ++ it.summary))

/-- The body of `is_strict_us_rvpark`, over the prepared text. -/
def scopeOfText (text : String) : Bool :=
  if NON_US_HINTS.any (fun nu => inStr nu text) then false
  else if !(MUST_HAVE_ANY.any fun k => inStr k text) then false
  else if REJECT_IF_ANY.any (fun bad => inStr bad text) then false
  else if !(US_OPERATOR_OK.any fun op => inStr op text) &&
          (!(US_HINTS.any fun h => inStr h text) && !(has_state_abbr text)) then false
  else true

/-- `is_strict_us_rvpark` from `digest.py`. -/
def is_strict_us_rvpark (it : Item) : Bool := scopeOfText (filterText it)

/-- `KEYWORDS` from `digest.py`, in source order. -/
def KEYWORDS : List (String × List String) :=
  [("Acquisitions / For Sale",
    ["acquisition", "acquired", "merger", "portfolio", "for sale", "listed",
     "broker", "transaction", "deal", "sale-leaseback"]),
   ("Insurance / Risk",
    ["insurance", "insurer", "premium", "underwriting", "liability", "risk",
     "claim", "wildfire", "flood", "hurricane"]),
   ("Legal / Zoning",
    ["zoning", "ordinance", "lawsuit", "litigation", "permit",
     "planning commission", "code enforcement", "injunction"]),
   ("Financing / Markets",
    ["financing", "refinancing", "loan", "lender", "debt", "cap rate",
     "interest rate", "bond"]),
   ("Earnings / Public Companies",
    ["earnings", "guidance", "conference call", "results",
     "10-q", "10-k", "8-k", "sec filing"]),
   ("Operations / Industry",
    ["occupancy", "rates", "revenue", "revpar", "reservations",
     "demand", "development", "expansion"]),
   ("People / Notable",
    ["ceo", "founder", "appointed", "resigns", "retired",
     "death", "dies", "passed away", "obituary"])]

/-- The haystack `categorize` builds: `(title + " " + summary).lower()`. -/
def catText (it : Item) : String := lowerStr (it.title ++ " " ++ it.summary)

/-- The labels whose keyword list has at least one substring hit in the
haystack, in `KEYWORDS` order — the `tags` list built by the loop in
`categorize`. -/
def tagsOfText (hay : String) : List String :=
  (KEYWORDS.filter fun p => p.2.any fun w => inStr w hay).map Prod.fst

/-- `categorize` from `digest.py`: the tag list, or `["Other"]` when empty
(Python `tags or ["Other"]`). -/
def categorize (it : Item) : List String :=
  let tags := tagsOfText (catText it)
  if tags = [] then ["Other"] else tags

/-- `within_days` from `digest.py`.  The ambient wall-clock `now` (in the
canonical Eastern timezone) is a parameter; `localize` models pytz
`ET.localize` on a naive reading (an external-library call, only reached
when `dt` is naive).  The test is `dt >= now - timedelta(days=days)`. -/
def within_days (localize : Int → Int) (now : Int) (dt : DT) (days : Nat) : Bool :=
  let i := if dt.aware then dt.instant else localize dt.instant
  decide (now - (days : Int) * usecPerDay ≤ i)

/-- `dt.replace(tzinfo=timezone.utc)` applied only when naive, as in the
normalization step of `collect_all`: the naive reading is reinterpreted as
UTC, which in this encoding keeps `instant` and sets the awareness flag. -/
def attachUTCIfNaive (d : DT) : DT :=
  if d.aware then d else { instant := d.instant, aware := true }

/-- `astimezone(ET)` on the aware values `collect_all` feeds it: timezone
conversion of an aware datetime preserves the instant, and `DT` tracks
only the instant, so this is the identity. -/
def astimezoneET (d : DT) : DT := d

/-- The normalization write of `collect_all` on one item. -/
def normItem (it : Item) : Item :=
  { it with published := attachUTCIfNaive it.published }

/-- The window-filter-and-dedupe loop at the end of `collect_all`:
normalize `published`, keep items passing `within_days`, and keep only the
first occurrence of each `url` (the `seen` set, here a list). -/
def windowDedup (localize : Int → Int) (now : Int) (days : Nat) :
    List Item → List String → List Item
  | [], _ => []
  | it :: rest, seen =>
    let it2 := normItem it
    if !(within_days localize now (astimezoneET it2.published) days) then
      windowDedup localize now days rest seen
    else if it2.url ∈ seen then
      windowDedup localize now days rest seen
    else
      it2 :: windowDedup localize now days rest (it2.url :: seen)

/-- The warning line `collect_all` prints when a source fails. -/
def warnMsg (name err : String) : String :=
  "[WARN] Failed source " ++ name ++ ": " ++ err

/-- The fetch loops of `collect_all`: each configured source or query
either returns a list of items or raises, modelled as `Except`; an
exception contributes no items and one warning line, and the loop
continues.  Returns the merged item sequence and the warnings. -/
def gatherFetches : List (String × Except String (List Item)) → List Item × List String
  | [] => ([], [])
  | (name, r) :: rest =>
    let acc := gatherFetches rest
    match r with
    | Except.ok items => (items ++ acc.1, acc.2)
    | Except.error e => (acc.1, warnMsg name e :: acc.2)

/-- `collect_all` from `digest.py`, over the per-source fetch outcomes:
merge all fetched items in source order, then window-filter and
deduplicate. -/
def collect_all (localize : Int → Int) (now : Int) (days : Nat)
    (fetches : List (String × Except String (List Item))) : List Item :=
  windowDedup localize now days (gatherFetches fetches).1 []

/-- The items of the merged sequence that pass the recency window, after
normalization — the candidates the dedup step chooses among. -/
def survivors (localize : Int → Int) (now : Int) (days : Nat) (l : List Item) : List Item :=
  (l.map normItem).filter fun it => within_days localize now (astimezoneET it.published) days

/-- One anchor element of a scraped HTML page, as BeautifulSoup presents
it to the loop in `parse_html_simple_dates`: its text content `txt`
(`get_text(" ", strip=True)`), its `href` attribute (`""` when absent),
and the text of its parent container (`context` before the `[:500]`
truncation). -/
structure Anchor where
  txt : String
  href : String
  context : String
deriving DecidableEq

/-- Python slice `s[:n]`. -/
def takeChars (n : Nat) (s : String) : String := ⟨s.toList.take n⟩

/-- Python `s.split(c)` on character lists, for a single-character
separator. -/
def splitOnChar (c : Char) : List Char → List (List Char)
  | [] => [[]]
  | h :: t =>
    let r := splitOnChar c t
    if h == c then [] :: r
    else
      match r with
      | [] => [[h]]
      | x :: xs => (h :: x) :: xs

/-- Python `url.split("/")`. -/
def splitSlash (s : String) : List String := (splitOnChar '/' s.toList).map (⟨·⟩)

/-- `url.split("/")[2]` — the host segment of an absolute URL. -/
def base_host (u : String) : String := (splitSlash u).getD 2 ""

/-- Python `href.startswith("/")`. -/
def startsWithSlash (s : String) : Bool := s.toList.head? == some '/'

/-- Python dict insertion `uniq[it.url] = it`: an existing key keeps its
position and takes the new value, a new key is appended. -/
def dictUpsert (m : List (String × Item)) (it : Item) : List (String × Item) :=
  if m.any fun p => p.1 == it.url then
    m.map fun p => if p.1 == it.url then (p.1, it) else p
  else m ++ [(it.url, it)]

/-- `uniq = {}; for it in items: uniq[it.url] = it; list(uniq.values())`:
per-fetch dedup, last-seen value wins, first-seen key order. -/
def lastWinsByUrl (l : List Item) : List Item :=
  (l.foldl dictUpsert []).map Prod.snd

/-- The body of the anchor loop in `parse_html_simple_dates`; `continue`
becomes `none`.  `ujoin` models `urllib.parse.urljoin` and `findDate`
models `date_regex.search` composed with `safe_dt` (regex engine and
dateutil, both external), applied to the truncated parent text. -/
def parseAnchor (ujoin : String → String → String) (findDate : String → Option DT)
    (source_name host url : String) (a : Anchor) : Option Item :=
  if a.txt == "" || a.href == "" then none
  else
    let href := if startsWithSlash a.href then ujoin url a.href else a.href
    if !(inStr host href) then none
    else
      match findDate (takeChars 500 a.context) with
      | none => none
      | some published =>
        some { source := source_name, title := a.txt, url := href, published := published }

/-- `parse_html_simple_dates` from `digest.py`, over the anchors of the
fetched page: run the anchor loop, then the per-fetch last-wins dedup. -/
def parse_html_simple_dates (ujoin : String → String → String)
    (findDate : String → Option DT)
    (source_name url : String) (anchors : List Anchor) : List Item :=
  lastWinsByUrl (anchors.filterMap (parseAnchor ujoin findDate source_name (base_host url) url))

/-! Concrete items used by counterexamples and witnesses. -/

/-- An item whose text has a topic phrase, no exclusion phrase, and the
full state name "indiana" — which contains the non-US hint "india". -/
def indianaItem : Item :=
  { source := "s", title := "rv park for sale in indiana", url := "u",
    published := ⟨0, true⟩ }

/-- An item whose text has a topic phrase, no exclusion phrase, no non-US
hint, and the full state name "florida". -/
def floridaItem : Item :=
  { source := "s", title := "rv park for sale in florida", url := "u",
    published := ⟨0, true⟩ }

/-- The identity in place of pytz `localize`; never consulted on aware
datetimes. -/
def idLoc : Int → Int := fun r => r

/-- A first fetched item with url "u", published eight days before the
reference instant `0` — outside a seven-day window. -/
def staleItem : Item :=
  { source := "f1", title := "A", url := "u", published := ⟨-8 * usecPerDay, true⟩ }

/-- A second fetched item with the same url "u", published at the
reference instant — inside the window. -/
def freshItem : Item :=
  { source := "f2", title := "B", url := "u", published := ⟨0, true⟩ }

/-- First of two in-window items sharing one url. -/
def firstItem : Item :=
  { source := "f1", title := "first title", url := "https://x/u", published := ⟨0, true⟩ }

/-- Second of two in-window items sharing one url. -/
def secondItem : Item :=
  { source := "f2", title := "second title", url := "https://x/u", published := ⟨0, true⟩ }

/-- The page the scraper counterexample fetches. -/
def page7 : String := "https://a.com/news"

/-- An anchor whose href is an absolute URL on another host whose path
merely contains the host string of the page, with a parseable date in
the surrounding text. -/
def anchorOffHost : Anchor :=
  ⟨"Big RV Park story", "https://b.org/a.com/x", "Jan 5, 2024 Big RV Park story"⟩

/-- An anchor with a same-host absolute href and a nearby date. -/
def anchorOnHost : Anchor := ⟨"Story", "https://a.com/story1", "Jan 5, 2024 Story"⟩

/-- Date extraction standing in for `date_regex.search` plus `safe_dt` on
the contexts above, each of which contains the parseable date
"Jan 5, 2024". -/
def date7 : String → Option DT := fun _ => some ⟨0, true⟩

/-- A stand-in for `urljoin`; never reached by these anchors, whose
hrefs are absolute. -/
def join7 : String → String → String := fun _ h => h

/-- Every item the dedup loop emits has a url outside the ambient `seen`
set and is the first surviving (normalized, window-passing) item of the
merged sequence that carries its url. -/
theorem windowDedup_find (localize : Int → Int) (now : Int) (days : Nat) :
    ∀ (l : List Item) (seen : List String), ∀ it ∈ windowDedup localize now days l seen,
      it.url ∉ seen ∧
      (survivors localize now days l).find? (fun x => x.url == it.url) = some it := by
  intro l
  induction l with
  | nil => intro seen it hit; simp [windowDedup] at hit
  | cons h t ih =>
    intro seen it hit
    by_cases hw : within_days localize now (astimezoneET (normItem h).published) days = true
    · have hs : survivors localize now days (h :: t) =
          normItem h :: survivors localize now days t := by
        simp [survivors, hw]
      by_cases hseen : (normItem h).url ∈ seen
      · have hit' : it ∈ windowDedup localize now days t seen := by
          simpa [windowDedup, hw, hseen] using hit
        obtain ⟨hnotin, hfind⟩ := ih seen it hit'
        have hne : ((normItem h).url == it.url) = false := by
          refine beq_eq_false_iff_ne.2 fun he => hnotin ?_
          exact he ▸ hseen
        refine ⟨hnotin, ?_⟩
        rw [hs, List.find?_cons_of_neg _ (by simp [hne]), hfind]
      · have hit' : it ∈ normItem h ::
            windowDedup localize now days t ((normItem h).url :: seen) := by
          simpa [windowDedup, hw, hseen] using hit
        rcases List.mem_cons.1 hit' with rfl | hrest
        · refine ⟨hseen, ?_⟩
          rw [hs, List.find?_cons_of_pos _ (by simp)]
        · obtain ⟨hnotin, hfind⟩ := ih ((normItem h).url :: seen) it hrest
          have hne : ((normItem h).url == it.url) = false := by
            refine beq_eq_false_iff_ne.2 fun he => hnotin ?_
            exact he ▸ List.mem_cons_self _ _
          refine ⟨fun hmem => hnotin (List.mem_cons_of_mem _ hmem), ?_⟩
          rw [hs, List.find?_cons_of_neg _ (by simp [hne]), hfind]
    · have hs : survivors localize now days (h :: t) = survivors localize now days t := by
        simp only [survivors, List.map_cons, List.filter_cons]
        simp [hw]
      have hit' : it ∈ windowDedup localize now days t seen := by
        simpa [windowDedup, hw] using hit
      obtain ⟨hnotin, hfind⟩ := ih seen it hit'
      exact ⟨hnotin, hs ▸ hfind⟩

/-- The urls of the dedup loop output are pairwise distinct. -/
theorem windowDedup_nodup (localize : Int → Int) (now : Int) (days : Nat) :
    ∀ (l : List Item) (seen : List String),
      ((windowDedup localize now days l seen).map Item.url).Nodup := by
  intro l
  induction l with
  | nil => intro seen; simp [windowDedup]
  | cons h t ih =>
    intro seen
    by_cases hw : within_days localize now (astimezoneET (normItem h).published) days = true
    · by_cases hseen : (normItem h).url ∈ seen
      · simpa [windowDedup, hw, hseen] using ih seen
      · have hout : windowDedup localize now days (h :: t) seen =
            normItem h :: windowDedup localize now days t ((normItem h).url :: seen) := by
          simp [windowDedup, hw, hseen]
        rw [hout, List.map_cons, List.nodup_cons]
        refine ⟨?_, ih _⟩
        intro hmem
        obtain ⟨x, hx, hxe⟩ := List.mem_map.1 hmem
        have hp := (windowDedup_find localize now days t ((normItem h).url :: seen) x hx).1
        exact hp (hxe ▸ List.mem_cons_self _ _)
    · simpa [windowDedup, hw] using ih seen

end RVDigest

namespace RVDigest

/-- C3: a source whose fetch raises contributes no items — the merged
item sequence is the same as if the source were absent from the
configuration — a warning line naming the source is emitted, and the
final `collect_all` output is unchanged; the exception never escapes. -/
theorem C3_fault_isolation (localize : Int → Int) (now : Int) (days : Nat)
    (pre post : List (String × Except String (List Item))) (name err : String) :
    (gatherFetches (pre ++ (name, Except.error err) :: post)).1 =
      (gatherFetches (pre ++ post)).1 ∧
    warnMsg name err ∈ (gatherFetches (pre ++ (name, Except.error err) :: post)).2 ∧
    collect_all localize now days (pre ++ (name, Except.error err) :: post) =
      collect_all localize now days (pre ++ post) := by
  have key : (gatherFetches (pre ++ (name, Except.error err) :: post)).1 =
      (gatherFetches (pre ++ post)).1 ∧
      warnMsg name err ∈ (gatherFetches (pre ++ (name, Except.error err) :: post)).2 := by
    induction pre with
    | nil => simp [gatherFetches]
    | cons p t ih =>
      obtain ⟨n, r⟩ := p
      cases r with
      | ok its =>
        refine ⟨?_, ?_⟩
        · simp only [List.cons_append, gatherFetches, List.append_eq]
          rw [ih.1]
        · simp only [List.cons_append, gatherFetches, List.append_eq]
          exact ih.2
      | error e =>
        refine ⟨?_, ?_⟩
        · simp only [List.cons_append, gatherFetches, List.append_eq]
          exact ih.1
        · simp only [List.cons_append, gatherFetches, List.append_eq]
          exact List.mem_cons_of_mem _ ih.2
  refine ⟨key.1, key.2, ?_⟩
  unfold collect_all
  rw [key.1]

/-- C4 (counterexample): with a seven-day window at reference instant 0,
a stale item with url "u" arrives first and an in-window item with the
same url arrives second; `collect_all` retains the second item, so the
retained item is not the first item carrying that url in iteration
order. -/
theorem C4_dedup_counterexample :
    collect_all idLoc 0 7 [("s1", Except.ok [staleItem]), ("s2", Except.ok [freshItem])] =
      [freshItem] ∧
    (gatherFetches [("s1", Except.ok [staleItem]), ("s2", Except.ok [freshItem])]).1.find?
      (fun x => x.url == freshItem.url) = some staleItem ∧
    staleItem ≠ freshItem := by decide

/-- C4 (amended): the urls of the `collect_all` output are pairwise
distinct, and each retained item is the first normalized, window-passing
item of the merged fetch sequence (source-list order, then query order)
that carries its url; in particular, of two in-window items with equal
url the first encountered is kept. -/
theorem C4_dedup_first_surviving (localize : Int → Int) (now : Int) (days : Nat)
    (fetches : List (String × Except String (List Item))) :
    ((collect_all localize now days fetches).map Item.url).Nodup ∧
    ∀ it ∈ collect_all localize now days fetches,
      (survivors localize now days (gatherFetches fetches).1).find?
        (fun x => x.url == it.url) = some it :=
  ⟨windowDedup_nodup localize now days _ [],
   fun it hit => (windowDedup_find localize now days _ [] it hit).2⟩

/-- C4 (witness): two in-window fetched items share a url; the first one
is what the dedup keeps. -/
theorem C4_dedup_first_surviving_witness :
    (survivors idLoc 0 7
      (gatherFetches [("s1", Except.ok [firstItem]), ("s2", Except.ok [secondItem])]).1).find?
      (fun x => x.url == firstItem.url) = some firstItem :=
  (C4_dedup_first_surviving idLoc 0 7
    [("s1", Except.ok [firstItem]), ("s2", Except.ok [secondItem])]).2 firstItem (by decide)

end RVDigest

namespace RVDigest

/-- C1 (counterexample): the item "rv park for sale in indiana" satisfies
every premise of the claim — a topic-inclusion phrase is present, no
adjacent-content exclusion phrase is present, and the full US region name
"indiana" is mentioned — yet `is_strict_us_rvpark` returns `false`,
because the non-US hard-reject list contains "india", a substring of
"indiana", and that check runs first. -/
theorem C1_geoGate_counterexample :
    MUST_HAVE_ANY.any (fun k => inStr k (filterText indianaItem)) = true ∧
    REJECT_IF_ANY.any (fun bad => inStr bad (filterText indianaItem)) = false ∧
    "indiana" ∈ US_STATE_NAMES ∧
    inStr "indiana" (filterText indianaItem) = true ∧
    is_strict_us_rvpark indianaItem = false := by decide

/-- C1 (amended): if the lower-cased, whitespace-collapsed text of an item
contains a topic-inclusion phrase, no adjacent-content exclusion phrase,
no phrase from the non-US hint list, and a full US state-name mention,
then `is_strict_us_rvpark` returns `true` — the full region-name mention
satisfies the geographic gate once the non-US hard-reject does not fire. -/
theorem C1_geoGate_amended (it : Item)
    (hnon : NON_US_HINTS.any (fun nu => inStr nu (filterText it)) = false)
    (hmust : MUST_HAVE_ANY.any (fun k => inStr k (filterText it)) = true)
    (hrej : REJECT_IF_ANY.any (fun bad => inStr bad (filterText it)) = false)
    (hstate : US_STATE_NAMES.any (fun s => inStr s (filterText it)) = true) :
    is_strict_us_rvpark it = true := by
  have hhint : US_HINTS.any (fun h => inStr h (filterText it)) = true := by
    simp [US_HINTS, List.any_append, hstate]
  simp [is_strict_us_rvpark, scopeOfText, hnon, hmust, hrej, hhint]

/-- C1 (witness): the amended statement applied to the "florida" item. -/
theorem C1_geoGate_witness : is_strict_us_rvpark floridaItem = true :=
  C1_geoGate_amended floridaItem (by decide) (by decide) (by decide) (by decide)

/-- C2: whenever `is_strict_us_rvpark` returns `true`, the lower-cased,
whitespace-collapsed text `title + " " + summary` contains at least one
phrase of `MUST_HAVE_ANY` and no phrase of `REJECT_IF_ANY`. -/
theorem C2_inscope_text (it : Item) (h : is_strict_us_rvpark it = true) :
    MUST_HAVE_ANY.any (fun k => inStr k (filterText it)) = true ∧
    REJECT_IF_ANY.any (fun bad => inStr bad (filterText it)) = false := by
  unfold is_strict_us_rvpark scopeOfText at h
  cases h1 : NON_US_HINTS.any (fun nu => inStr nu (filterText it)) <;>
  cases h2 : MUST_HAVE_ANY.any (fun k => inStr k (filterText it)) <;>
  cases h3 : REJECT_IF_ANY.any (fun bad => inStr bad (filterText it)) <;>
  simp_all

/-- C2 (witness): the statement applied to a concrete in-scope item. -/
theorem C2_inscope_text_witness :
    MUST_HAVE_ANY.any (fun k => inStr k (filterText floridaItem)) = true ∧
    REJECT_IF_ANY.any (fun bad => inStr bad (filterText floridaItem)) = false :=
  C2_inscope_text floridaItem (by decide)

/-- C5: on a timezone-aware datetime, `within_days` is the comparison
`dt >= now - days` — the boundary instant is included, anything strictly
older is excluded, and a far-future instant (at or after `now`) passes. -/
theorem C5_window_boundary (localize : Int → Int) (now : Int) (days : Nat) (dt : DT)
    (h : dt.aware = true) :
    (within_days localize now dt days = true ↔
      now - (days : Int) * usecPerDay ≤ dt.instant) ∧
    (dt.instant = now - (days : Int) * usecPerDay →
      within_days localize now dt days = true) ∧
    (dt.instant < now - (days : Int) * usecPerDay →
      within_days localize now dt days = false) ∧
    (now ≤ dt.instant → within_days localize now dt days = true) := by
  refine ⟨?_, ?_, ?_, ?_⟩ <;> simp [within_days, usecPerDay, h] <;> omega

/-- C5 (witness): the statement applied at `now = 0`, a seven-day window,
and the aware instant `0` (a "far future" timestamp relative to the
start of the window, equal to `now`). -/
theorem C5_window_boundary_witness :
    (within_days idLoc 0 (DT.mk 0 true) 7 = true ↔
      (0 : Int) - ((7 : Nat) : Int) * usecPerDay ≤ (DT.mk 0 true).instant) ∧
    ((DT.mk 0 true).instant = (0 : Int) - ((7 : Nat) : Int) * usecPerDay →
      within_days idLoc 0 (DT.mk 0 true) 7 = true) ∧
    ((DT.mk 0 true).instant < (0 : Int) - ((7 : Nat) : Int) * usecPerDay →
      within_days idLoc 0 (DT.mk 0 true) 7 = false) ∧
    ((0 : Int) ≤ (DT.mk 0 true).instant → within_days idLoc 0 (DT.mk 0 true) 7 = true) :=
  C5_window_boundary idLoc 0 7 (DT.mk 0 true) rfl

/-- C6: `categorize` always returns a non-empty list; a label is a tag of
the haystack of the item exactly when its keyword list has a substring hit;
when some label matches, the result is exactly the matching labels in
table order; when none matches, the result is exactly `["Other"]`; and
the catch-all label never co-occurs with another label. -/
theorem C6_categorize_labels (it : Item) :
    categorize it ≠ [] ∧
    (∀ lab, lab ∈ tagsOfText (catText it) ↔
      ∃ ws, (lab, ws) ∈ KEYWORDS ∧ ws.any (fun w => inStr w (catText it)) = true) ∧
    (tagsOfText (catText it) ≠ [] → categorize it = tagsOfText (catText it)) ∧
    (tagsOfText (catText it) = [] → categorize it = ["Other"]) ∧
    ("Other" ∈ categorize it → categorize it = ["Other"]) := by
  have hmem : ∀ lab, lab ∈ tagsOfText (catText it) ↔
      ∃ ws, (lab, ws) ∈ KEYWORDS ∧ ws.any (fun w => inStr w (catText it)) = true := by
    intro lab
    simp only [tagsOfText, List.mem_map, List.mem_filter]
    constructor
    · rintro ⟨⟨l, ws⟩, ⟨hin, hany⟩, rfl⟩
      exact ⟨ws, hin, hany⟩
    · rintro ⟨ws, hin, hany⟩
      exact ⟨(lab, ws), ⟨hin, hany⟩, rfl⟩
  have hother : "Other" ∉ KEYWORDS.map Prod.fst := by decide
  by_cases ht : tagsOfText (catText it) = []
  · refine ⟨by simp [categorize, ht], hmem, fun hne => absurd ht hne, fun _ => by simp [categorize, ht], fun _ => by simp [categorize, ht]⟩
  · refine ⟨by simp [categorize, ht], hmem, fun _ => by simp [categorize, ht], fun he => absurd he ht, ?_⟩
    intro hoth
    have hoth' : "Other" ∈ tagsOfText (catText it) := by
      have : categorize it = tagsOfText (catText it) := by simp [categorize, ht]
      rwa [this] at hoth
    obtain ⟨ws, hk, _⟩ := (hmem "Other").1 hoth'
    exact absurd (List.mem_map_of_mem Prod.fst hk) hother

/-- C6 (witness): the "exactly the matching labels" clause applied to a
concrete item matching the acquisitions keyword list. -/
theorem C6_categorize_witness :
    categorize floridaItem = tagsOfText (catText floridaItem) :=
  (C6_categorize_labels floridaItem).2.2.1 (by decide)

end RVDigest

namespace RVDigest

/-- Attaching UTC to a possibly-naive datetime always yields an aware
value. -/
theorem attach_aware (d : DT) : (attachUTCIfNaive d).aware = true := by
  unfold attachUTCIfNaive
  split
  · assumption
  · rfl

/-- Attaching UTC to a possibly-naive datetime preserves the instant. -/
theorem attach_instant (d : DT) : (attachUTCIfNaive d).instant = d.instant := by
  unfold attachUTCIfNaive
  split <;> rfl

/-- Every item the dedup loop emits is aware and passes the window. -/
theorem windowDedup_mem_props (localize : Int → Int) (now : Int) (days : Nat)
    (l : List Item) (seen : List String) (it : Item)
    (hit : it ∈ windowDedup localize now days l seen) :
    it.published.aware = true ∧
    within_days localize now (astimezoneET it.published) days = true := by
  have hfind := (windowDedup_find localize now days l seen it hit).2
  have hmem := List.mem_of_find?_eq_some hfind
  unfold survivors at hmem
  rw [List.mem_filter] at hmem
  obtain ⟨o, _, rfl⟩ := List.mem_map.1 hmem.1
  refine ⟨?_, hmem.2⟩
  simp only [normItem]
  exact attach_aware o.published

/-- On a list of aware, window-passing items with pairwise-distinct urls
disjoint from `seen`, the dedup loop is the identity. -/
theorem windowDedup_id (localize : Int → Int) (now : Int) (days : Nat) :
    ∀ (l : List Item) (seen : List String),
      (∀ it ∈ l, it.published.aware = true ∧
        within_days localize now (astimezoneET it.published) days = true) →
      (∀ it ∈ l, it.url ∉ seen) →
      (l.map Item.url).Nodup →
      windowDedup localize now days l seen = l := by
  intro l
  induction l with
  | nil => intro seen _ _ _; rfl
  | cons h t ih =>
    intro seen hall hseen hnodup
    have hh := hall h (List.mem_cons_self _ _)
    have hnorm : normItem h = h := by
      have ha : attachUTCIfNaive h.published = h.published := by
        unfold attachUTCIfNaive
        rw [if_pos hh.1]
      simp [normItem, ha]
    rw [List.map_cons, List.nodup_cons] at hnodup
    have hs0 : h.url ∉ seen := hseen h (List.mem_cons_self _ _)
    have hrec := ih (h.url :: seen)
      (fun it hmem => hall it (List.mem_cons_of_mem _ hmem))
      (fun it hmem hin => by
        rcases List.mem_cons.1 hin with he | hin'
        · exact hnodup.1 (he ▸ List.mem_map_of_mem Item.url hmem)
        · exact hseen it (List.mem_cons_of_mem _ hmem) hin')
      hnodup.2
    simp [windowDedup, hnorm, hh.2, hs0, hrec]

/-- C8: the window-filter-and-dedupe step of the Collector is idempotent —
running it on its own output returns that output unchanged. -/
theorem C8_windowDedup_idempotent (localize : Int → Int) (now : Int) (days : Nat)
    (l : List Item) :
    windowDedup localize now days (windowDedup localize now days l []) [] =
      windowDedup localize now days l [] := by
  apply windowDedup_id
  · exact fun it hit => windowDedup_mem_props localize now days l [] it hit
  · exact fun it _ => List.not_mem_nil _
  · exact windowDedup_nodup localize now days l []

/-- C9: every item surviving `collect_all` coincides with a fetched item
on `source`, `title`, `url` and `summary`; the only write is on
`published`, whose value is the fetched timestamp with UTC attached when
naive — an operation that preserves the instant the value denotes. -/
theorem C9_collect_frame (localize : Int → Int) (now : Int) (days : Nat)
    (fetches : List (String × Except String (List Item))) :
    ∀ it ∈ collect_all localize now days fetches,
      ∃ orig ∈ (gatherFetches fetches).1,
        it.source = orig.source ∧ it.title = orig.title ∧ it.url = orig.url ∧
        it.summary = orig.summary ∧
        it.published = attachUTCIfNaive orig.published ∧
        (attachUTCIfNaive orig.published).instant = orig.published.instant := by
  intro it hit
  have hfind := (windowDedup_find localize now days (gatherFetches fetches).1 [] it hit).2
  have hmem := List.mem_of_find?_eq_some hfind
  unfold survivors at hmem
  rw [List.mem_filter] at hmem
  obtain ⟨o, ho, rfl⟩ := List.mem_map.1 hmem.1
  exact ⟨o, ho, rfl, rfl, rfl, rfl, rfl, attach_instant o.published⟩

/-- C9 (witness): the frame condition at a concrete one-item run. -/
theorem C9_collect_frame_witness :
    ∃ orig ∈ (gatherFetches [("s1", Except.ok [freshItem])]).1,
      freshItem.source = orig.source ∧ freshItem.title = orig.title ∧
      freshItem.url = orig.url ∧ freshItem.summary = orig.summary ∧
      freshItem.published = attachUTCIfNaive orig.published ∧
      (attachUTCIfNaive orig.published).instant = orig.published.instant :=
  C9_collect_frame idLoc 0 7 [("s1", Except.ok [freshItem])] freshItem (by decide)

/-- When the anchor loop keeps an item, the page host occurs in the kept
url and the summary of the item is the dataclass default. -/
theorem parseAnchor_some (ujoin : String → String → String) (findDate : String → Option DT)
    (sname host url : String) (a : Anchor) (it : Item)
    (h : parseAnchor ujoin findDate sname host url a = some it) :
    inStr host it.url = true ∧ it.summary = "" := by
  unfold parseAnchor at h
  by_cases h1 : (a.txt == "" || a.href == "") = true
  · simp [h1] at h
  · by_cases h2 : inStr host (if startsWithSlash a.href then ujoin url a.href else a.href) = true
    · cases hd : findDate (takeChars 500 a.context) with
      | none => simp [h1, h2, hd] at h
      | some pub =>
        simp only [h1, h2, hd, Bool.not_true, Bool.false_eq_true, if_false] at h
        rw [Option.some.injEq] at h
        subst h
        exact ⟨h2, rfl⟩
    · simp [h1, h2] at h

/-- The values of an upserted dictionary are old values or the new value. -/
theorem dictUpsert_snd_mem (m : List (String × Item)) (x : Item) (q : Item)
    (hq : q ∈ (dictUpsert m x).map Prod.snd) : q ∈ m.map Prod.snd ∨ q = x := by
  unfold dictUpsert at hq
  by_cases hc : (m.any fun p => p.1 == x.url) = true
  · rw [if_pos hc, List.map_map] at hq
    obtain ⟨p, hp, hpe⟩ := List.mem_map.1 hq
    by_cases hpc : (p.1 == x.url) = true
    · right
      rw [← hpe]
      simp [Function.comp, hpc]
    · left
      rw [← hpe]
      simp only [Function.comp_apply]
      rw [if_neg hpc]
      exact List.mem_map_of_mem Prod.snd hp
  · rw [if_neg hc, List.map_append] at hq
    rcases List.mem_append.1 hq with hin | hin
    · exact Or.inl hin
    · right
      simpa using hin

/-- Folding dict upserts only ever stores fetched items as values. -/
theorem foldl_upsert_snd_mem : ∀ (l : List Item) (m : List (String × Item)) (q : Item),
    q ∈ (l.foldl dictUpsert m).map Prod.snd → q ∈ m.map Prod.snd ∨ q ∈ l := by
  intro l
  induction l with
  | nil => intro m q hq; exact Or.inl hq
  | cons h t ih =>
    intro m q hq
    simp only [List.foldl_cons] at hq
    rcases ih (dictUpsert m h) q hq with hm | hl
    · rcases dictUpsert_snd_mem m h q hm with hm' | rfl
      · exact Or.inl hm'
      · exact Or.inr (List.mem_cons_self _ _)
    · exact Or.inr (List.mem_cons_of_mem _ hl)

/-- Per-fetch last-wins dedup returns a sublist of the fetched items. -/
theorem lastWins_mem (l : List Item) (q : Item) (hq : q ∈ lastWinsByUrl l) : q ∈ l := by
  unfold lastWinsByUrl at hq
  rcases foldl_upsert_snd_mem l [] q hq with hm | hl
  · simp at hm
  · exact hl

end RVDigest

namespace RVDigest

/-- C7 (counterexample): scraping the page `https://a.com/news`, an
anchor to `https://b.org/a.com/x` — a different host whose path merely
contains the string "a.com" — is kept as an item even though its
resolved absolute URL is not on the host of the page. -/
theorem C7_host_counterexample :
    parse_html_simple_dates join7 date7 "src" page7 [anchorOffHost] =
      [{ source := "src", title := "Big RV Park story", url := "https://b.org/a.com/x",
         published := ⟨0, true⟩ }] ∧
    base_host "https://b.org/a.com/x" ≠ base_host page7 := by decide

/-- C7 (amended): `parse_html_simple_dates` keeps an anchor as an item
only if the host segment of the page occurs as a substring of the
(resolved) URL — a check that admits same-host links but is weaker than
requiring the resolved URL to be on the same host. -/
theorem C7_host_amended (ujoin : String → String → String) (findDate : String → Option DT)
    (sname url : String) (anchors : List Anchor) :
    ∀ it ∈ parse_html_simple_dates ujoin findDate sname url anchors,
      inStr (base_host url) it.url = true := by
  intro it hit
  unfold parse_html_simple_dates at hit
  have hmem := lastWins_mem _ it hit
  obtain ⟨a, _, ha⟩ := List.mem_filterMap.1 hmem
  exact (parseAnchor_some ujoin findDate sname (base_host url) url a it ha).1

/-- C7 (witness): the amended statement at a same-host anchor. -/
theorem C7_host_witness :
    inStr (base_host "https://a.com/news")
      ({ source := "src", title := "Story", url := "https://a.com/story1",
         published := ⟨0, true⟩ } : Item).url = true :=
  C7_host_amended join7 date7 "src" "https://a.com/news" [anchorOnHost]
    { source := "src", title := "Story", url := "https://a.com/story1",
      published := ⟨0, true⟩ }
    (by decide)

/-- C10: every item the Pattern-Scrape Fetcher produces has the empty
default summary, so on such items the relevance filter and the
categorizer are computed from the title text alone (the haystack is
`title + " "`). -/
theorem C10_scrape_summary (ujoin : String → String → String) (findDate : String → Option DT)
    (sname url : String) (anchors : List Anchor) :
    ∀ it ∈ parse_html_simple_dates ujoin findDate sname url anchors,
      it.summary = "" ∧
      is_strict_us_rvpark it = scopeOfText (normText (lowerStr (it.title ++ " "))) ∧
      categorize it =
        (if tagsOfText (lowerStr (it.title ++ " ")) = [] then ["Other"]
         else tagsOfText (lowerStr (it.title ++ " "))) := by
  intro it hit
  unfold parse_html_simple_dates at hit
  have hmem := lastWins_mem _ it hit
  obtain ⟨a, _, ha⟩ := List.mem_filterMap.1 hmem
  have hsum := (parseAnchor_some ujoin findDate sname (base_host url) url a it ha).2
  have happ : it.title ++ " " ++ it.summary = it.title ++ " " := by
    rw [hsum, String.append_empty]
  refine ⟨hsum, ?_, ?_⟩
  · unfold is_strict_us_rvpark filterText
    rw [happ]
  · unfold categorize catText
    rw [happ]

/-- C10 (witness): the scraped item of the same-host anchor has the
empty summary. -/
theorem C10_scrape_summary_witness :
    ({ source := "src", title := "Story", url := "https://a.com/story1",
       published := ⟨0, true⟩ } : Item).summary = "" :=
  (C10_scrape_summary join7 date7 "src" "https://a.com/news" [anchorOnHost]
    { source := "src", title := "Story", url := "https://a.com/story1",
      published := ⟨0, true⟩ }
    (by decide)).1

end RVDigest
